import Mathlib

/-!
Shallow embedding of the slothtime-rs core (src/time_entry.rs, src/export.rs,
src/app.rs).  Strings are modelled as lists of characters (`List Char`); all
claim-relevant operations act character-wise and the source only ever
manipulates the strings through insertion/removal at the tracked cursor
offset, `len`, emptiness tests and splitting on the newline character, so the
character-level view is faithful for the inputs the claims range over.
Wall-clock state (`Instant` timestamps, the status-message timer) and the file
system are outside the embedding; persistence attempts are modelled by a
counter `saveCount` incremented once per `save_entries` call.
-/

/-- Entry model, from `TimeEntry` in src/time_entry.rs: five text fields. -/
structure TimeEntry where
  task_number : List Char
  work_code : List Char
  time_entry : List Char
  start_time : List Char
  end_time : List Char
deriving Repr, DecidableEq

namespace TimeEntry

/-- `TimeEntry::new` (src/time_entry.rs:14-22): all fields empty. -/
def new : TimeEntry := ⟨[], [], [], [], []⟩

/-- `TimeEntry::is_complete` (src/time_entry.rs:24-30). -/
def is_complete (e : TimeEntry) : Bool :=
  !e.task_number.isEmpty && !e.work_code.isEmpty && !e.time_entry.isEmpty
    && !e.start_time.isEmpty && !e.end_time.isEmpty

/-- `TimeEntry::is_entirely_empty` (src/time_entry.rs:32-38). -/
def is_entirely_empty (e : TimeEntry) : Bool :=
  e.task_number.isEmpty && e.work_code.isEmpty && e.time_entry.isEmpty
    && e.start_time.isEmpty && e.end_time.isEmpty

end TimeEntry

/-- Rust `u32::from_str` on a character list: an optional leading `'+'` sign
followed by at least one decimal digit (unsigned parsing rejects `'-'`).
Overflow cannot occur at the two-character call sites of `parse_time`. -/
def parseU32 (s : List Char) : Option Nat :=
  let digits := match s with
    | '+' :: rest => rest
    | other => other
  if digits.isEmpty then none
  else if digits.all Char.isDigit then
    some (digits.foldl (fun a c => a * 10 + (c.toNat - '0'.toNat)) 0)
  else none

/-- `chrono::NaiveTime::from_hms_opt hour min 0`, represented as minutes
since midnight; `none` when the hour or minute is out of range. -/
def from_hms_opt (hour min : Nat) : Option Nat :=
  if hour < 24 && min < 60 then some (hour * 60 + min) else none

namespace TimeEntry

/-- `TimeEntry::parse_time` (src/time_entry.rs:58-68): remove every `':'`,
require exactly four remaining characters, parse each half as a `u32` and
build a time-of-day. -/
def parse_time (time_str : List Char) : Option Nat :=
  let t := time_str.filter (fun c => c ≠ ':')
  if t.length = 4 then
    match parseU32 (t.take 2), parseU32 (t.drop 2) with
    | some hour, some min => from_hms_opt hour min
    | _, _ => none
  else none

/-- Decimal rendering of `format!("\x7b:02\x7d", n)`: at least two digits,
zero-padded on the left. -/
def format02 (n : Nat) : List Char :=
  if n < 10 then '0' :: Nat.toDigits 10 n else Nat.toDigits 10 n

/-- `TimeEntry::calculate_task_time` (src/time_entry.rs:40-56). -/
def calculate_task_time (e : TimeEntry) : Option (List Char) :=
  if e.start_time.isEmpty || e.end_time.isEmpty then none
  else
    match parse_time e.start_time, parse_time e.end_time with
    | some s, some en =>
      if en < s then none
      else some (format02 ((en - s) / 60) ++ ':' :: format02 ((en - s) % 60))
    | _, _ => none

end TimeEntry

/-- One data record written by `export_csv` (src/export.rs:39-47); the `row`
column holds the 1-based index rendered by the writer. -/
structure ExportRow where
  row : Nat
  task_number : List Char
  work_code : List Char
  time_entry : List Char
  start_time : List Char
  end_time : List Char
  task_time : List Char
deriving Repr, DecidableEq

/-- Record construction inside the export loop (src/export.rs:36-47):
absent duration is replaced by the `"00:00"` placeholder. -/
def mkExportRow (i : Nat) (e : TimeEntry) : ExportRow :=
  { row := i + 1
    task_number := e.task_number
    work_code := e.work_code
    time_entry := e.time_entry
    start_time := e.start_time
    end_time := e.end_time
    task_time := e.calculate_task_time.getD ('0' :: '0' :: ':' :: '0' :: '0' :: []) }

/-- Data rows produced by `export_csv` (src/export.rs:33-49): iterate the
entries with their indices and emit a record for every entry that is not
entirely empty. -/
def export_csv_rows (entries : List TimeEntry) : List ExportRow :=
  entries.enum.filterMap fun p =>
    if p.2.is_entirely_empty then none else some (mkExportRow p.1 p.2)

/-- Input modes, from `InputMode` in src/app.rs:15-24. -/
inductive InputMode
  | Navigation
  | Editing
  | EditingPopup
  | ViewingPopup
  | Help
  | ConfirmDeleteEntry
  | ConfirmClearEntries
deriving Repr, DecidableEq

/-- Grid cursor, from `Cursor` in src/app.rs:26-30. -/
structure Cursor where
  row : Nat
  col : Nat
deriving Repr, DecidableEq

/-- `Cursor::new` (src/app.rs:33-35): first row, first editable column. -/
def Cursor.new : Cursor := ⟨0, 1⟩

/-- Key codes distinguished by `App::handle_key` (src/app.rs:166-351); every
code it does not inspect behaves like `other`. -/
inductive KeyCode
  | char (c : Char)
  | tab
  | backTab
  | up
  | down
  | left
  | right
  | esc
  | enter
  | home
  | endK
  | backspace
  | other
deriving Repr, DecidableEq

/-- A key press: the code plus whether the CONTROL modifier is held (the only
modifier the source tests). -/
structure KeyEvent where
  code : KeyCode
  ctrl : Bool
deriving Repr, DecidableEq

/-- Application state, from `App` in src/app.rs:38-51.  Timestamps and the
status-message channel live outside the embedding; `saveCount` counts the
`save_entries` persistence attempts. -/
structure App where
  entries : List TimeEntry
  cursor : Cursor
  mode : InputMode
  should_quit : Bool
  popup_scroll : Nat
  text_cursor : Nat
  pending_delete : Bool
  saveCount : Nat
deriving Repr, DecidableEq

namespace App

/-- `App::save_entries` (src/app.rs:89-105): one persistence attempt (backup,
retention sweep and write are file-system effects outside the embedding). -/
def save_entries (a : App) : App := { a with saveCount := a.saveCount + 1 }

/-- `App::auto_save` (src/app.rs:666-672): a persistence attempt; the
`last_save_time` bookkeeping is wall-clock state outside the embedding. -/
def auto_save (a : App) : App := a.save_entries

end App

namespace TimeEntry

/-- Field selected by a column index, as matched at src/app.rs:423-429,
438-444, 569-575, 592-598 (column order task_number..end_time = 1..5). -/
def getField (e : TimeEntry) (col : Nat) : List Char :=
  match col with
  | 1 => e.task_number
  | 2 => e.work_code
  | 3 => e.time_entry
  | 4 => e.start_time
  | 5 => e.end_time
  | _ => []

/-- Write back the field selected by a column index (the `&mut` field
obtained at src/app.rs:569-575 and 592-598). -/
def setField (e : TimeEntry) (col : Nat) (v : List Char) : TimeEntry :=
  match col with
  | 1 => { e with task_number := v }
  | 2 => { e with work_code := v }
  | 3 => { e with time_entry := v }
  | 4 => { e with start_time := v }
  | 5 => { e with end_time := v }
  | _ => e

end TimeEntry

namespace App

/-- `App::update_text_cursor` (src/app.rs:419-433): re-anchor the text cursor
to the end of the currently selected field. -/
def update_text_cursor (a : App) : App :=
  if a.cursor.row < a.entries.length then
    { a with text_cursor :=
        ((a.entries.getD a.cursor.row TimeEntry.new).getField a.cursor.col).length }
  else a

/-- `App::get_current_field_length` (src/app.rs:435-449). -/
def get_current_field_length (a : App) : Nat :=
  if a.cursor.row < a.entries.length then
    ((a.entries.getD a.cursor.row TimeEntry.new).getField a.cursor.col).length
  else 0

/-- Mode normalization performed by `App::update_mode_for_column`
(src/app.rs:397-414): on the multi-line column Navigation/Editing become the
popup modes, off it the popup modes convert back; every other mode is left
unchanged. -/
def normalizeMode (m : InputMode) (col : Nat) : InputMode :=
  if col = 3 then
    match m with
    | InputMode.Navigation => InputMode.ViewingPopup
    | InputMode.Editing => InputMode.EditingPopup
    | m => m
  else
    match m with
    | InputMode.ViewingPopup => InputMode.Navigation
    | InputMode.EditingPopup => InputMode.Editing
    | m => m

/-- `App::update_mode_for_column` (src/app.rs:397-417): normalize the mode
for the current column (resetting the popup scroll when off column 3) and
re-anchor the text cursor. -/
def update_mode_for_column (a : App) : App :=
  ({ a with
      mode := normalizeMode a.mode a.cursor.col
      popup_scroll := if a.cursor.col = 3 then a.popup_scroll else 0 }).update_text_cursor

/-- `App::next_row` (src/app.rs:377-388): step down, auto-creating a trailing
blank row when standing on a complete last row. -/
def next_row (a : App) : App :=
  (if a.cursor.row < a.entries.length - 1 then
    { a with cursor := { a.cursor with row := a.cursor.row + 1 } }
  else if (a.entries.getD a.cursor.row TimeEntry.new).is_complete then
    { a with
        entries := a.entries ++ [TimeEntry.new]
        cursor := { a.cursor with row := a.cursor.row + 1 } }
  else a).update_mode_for_column

/-- `App::prev_row` (src/app.rs:390-395). -/
def prev_row (a : App) : App :=
  (if a.cursor.row > 0 then
    { a with cursor := { a.cursor with row := a.cursor.row - 1 } }
  else a).update_mode_for_column

/-- `App::next_col` (src/app.rs:353-362): advance a column, wrapping past
column 5 to column 1 of the next row. -/
def next_col (a : App) : App :=
  (if a.cursor.col < 5 then
    { a with cursor := { a.cursor with col := a.cursor.col + 1 } }
  else
    next_row { a with cursor := { a.cursor with col := 1 } }).update_mode_for_column

/-- `App::prev_col` (src/app.rs:364-375): retreat a column; before column 1
the column becomes 5 and the row decreases only when it is positive. -/
def prev_col (a : App) : App :=
  (if a.cursor.col > 1 then
    { a with cursor := { a.cursor with col := a.cursor.col - 1 } }
  else if a.cursor.row > 0 then
    { a with cursor := { row := a.cursor.row - 1, col := 5 } }
  else
    { a with cursor := { a.cursor with col := 5 } }).update_mode_for_column

/-- `App::enter_edit` (src/app.rs:536-551). -/
def enter_edit (a : App) : App :=
  (match a.mode with
  | InputMode.ViewingPopup => { a with mode := InputMode.EditingPopup }
  | _ =>
    if a.cursor.col = 3 then { a with mode := InputMode.EditingPopup }
    else { a with mode := InputMode.Editing }).update_text_cursor

/-- `App::exit_edit` (src/app.rs:553-562): back to Navigation, auto-append a
blank row after a complete last row, then save. -/
def exit_edit (a : App) : App :=
  (if a.cursor.row = a.entries.length - 1
      ∧ (a.entries.getD a.cursor.row TimeEntry.new).is_complete then
    { a with mode := InputMode.Navigation, entries := a.entries ++ [TimeEntry.new] }
  else { a with mode := InputMode.Navigation }).auto_save

/-- `App::insert_char` (src/app.rs:564-585): guarded insertion at the text
cursor followed by a save; out-of-range row, column or cursor is a no-op. -/
def insert_char (a : App) (c : Char) : App :=
  if a.cursor.row ≥ a.entries.length then a
  else if a.cursor.col < 1 ∨ a.cursor.col > 5 then a
  else if a.text_cursor ≤
      ((a.entries.getD a.cursor.row TimeEntry.new).getField a.cursor.col).length then
    ({ a with
        entries := a.entries.set a.cursor.row
          ((a.entries.getD a.cursor.row TimeEntry.new).setField a.cursor.col
            (((a.entries.getD a.cursor.row TimeEntry.new).getField a.cursor.col).insertIdx
              a.text_cursor c))
        text_cursor := a.text_cursor + 1 }).auto_save
  else a

/-- `App::delete_char` (src/app.rs:587-608): guarded removal of the character
before the text cursor followed by a save. -/
def delete_char (a : App) : App :=
  if a.cursor.row ≥ a.entries.length ∨ a.text_cursor = 0 then a
  else if a.cursor.col < 1 ∨ a.cursor.col > 5 then a
  else if a.text_cursor > 0 ∧ a.text_cursor ≤
      ((a.entries.getD a.cursor.row TimeEntry.new).getField a.cursor.col).length then
    ({ a with
        entries := a.entries.set a.cursor.row
          ((a.entries.getD a.cursor.row TimeEntry.new).setField a.cursor.col
            (((a.entries.getD a.cursor.row TimeEntry.new).getField a.cursor.col).eraseIdx
              (a.text_cursor - 1)))
        text_cursor := a.text_cursor - 1 }).auto_save
  else a

/-- `App::export` (src/app.rs:610-613): CSV write (a file-system effect whose
produced rows are `export_csv_rows`) followed by a persistence attempt. -/
def exportAction (a : App) : App := a.save_entries

/-- `App::clear_entries` (src/app.rs:615-619). -/
def clear_entries (a : App) : App :=
  ({ a with entries := [TimeEntry.new], cursor := Cursor.new }).save_entries

/-- `App::copy_current_field` (src/app.rs:674-711): clipboard and status
message only; no modelled state changes. -/
def copy_current_field (a : App) : App := a

/-- `App::delete_current_entry` (src/app.rs:621-640): reset the single
remaining row in place, or remove the current row and clamp; then reset the
column, re-normalize the mode and save. -/
def delete_current_entry (a : App) : App :=
  (App.update_mode_for_column
    (if a.entries.length ≤ 1 then
      { a with entries := a.entries.set 0 TimeEntry.new, cursor := ⟨0, 1⟩ }
    else if a.cursor.row ≥ (a.entries.eraseIdx a.cursor.row).length then
      { a with
          entries := a.entries.eraseIdx a.cursor.row
          cursor := { row := (a.entries.eraseIdx a.cursor.row).length - 1, col := 1 } }
    else
      { a with
          entries := a.entries.eraseIdx a.cursor.row
          cursor := { a.cursor with col := 1 } })).save_entries

end App

/-- Strip one trailing carriage return from a line whose newline terminator
was just removed, as Rust `str::lines` does to pieces ending in the
carriage-return/newline sequence. -/
def stripCR (l : List Char) : List Char :=
  if l.getLast? = some '\r' then l.dropLast else l

/-- Rust `str::lines()` on a character list: split on the newline character
with the final line ending optional (an empty string yields no lines, a
trailing newline yields no trailing empty line).  A carriage return is
dropped only together with a following newline, so each newline-terminated
piece loses one trailing carriage return, while the final unterminated line
keeps a bare trailing carriage return. -/
def rustLines (s : List Char) : List (List Char) :=
  if s.isEmpty then []
  else if s.getLast? = some '\n' then ((s.splitOn '\n').dropLast).map stripCR
  else ((s.splitOn '\n').dropLast).map stripCR ++ [((s.splitOn '\n').getLast?).getD []]

/-- Line-locating loop shared by `move_cursor_up_in_text` and
`move_cursor_down_in_text` (src/app.rs:464-475 and 506-517): walk the lines
accumulating the character count (line length plus one separator each),
break at the first line whose end reaches the cursor; when no line does, the
initializers `(0, 0)` are kept. -/
def findLineAux : List (List Char) → Nat → Nat → Nat → Nat × Nat
  | [], _, _, _ => (0, 0)
  | l :: rest, cursor, idx, charCount =>
    if charCount + l.length ≥ cursor then (idx, cursor - charCount)
    else findLineAux rest cursor (idx + 1) (charCount + l.length + 1)

/-- Offset of the start of line `k`: the lengths of the preceding lines plus
one separator per line (the `new_cursor` accumulation loops at
src/app.rs:483-486 and 525-528). -/
def linesPrefixLen (lines : List (List Char)) (k : Nat) : Nat :=
  ((lines.take k).map (fun l => l.length + 1)).sum

/-- Core of `App::move_cursor_up_in_text` (src/app.rs:451-491) on the
multi-line field's text and the current text-cursor offset. -/
def textMoveUp (text : List Char) (cursor : Nat) : Nat :=
  if (rustLines text).isEmpty then cursor
  else if (findLineAux (rustLines text) cursor 0 0).1 > 0 then
    linesPrefixLen (rustLines text) ((findLineAux (rustLines text) cursor 0 0).1 - 1) +
      min (findLineAux (rustLines text) cursor 0 0).2
        ((rustLines text).getD ((findLineAux (rustLines text) cursor 0 0).1 - 1) []).length
  else cursor

/-- Core of `App::move_cursor_down_in_text` (src/app.rs:493-534). -/
def textMoveDown (text : List Char) (cursor : Nat) : Nat :=
  if (rustLines text).isEmpty then cursor
  else if (findLineAux (rustLines text) cursor 0 0).1 < (rustLines text).length - 1 then
    linesPrefixLen (rustLines text) ((findLineAux (rustLines text) cursor 0 0).1 + 1) +
      min (findLineAux (rustLines text) cursor 0 0).2
        ((rustLines text).getD ((findLineAux (rustLines text) cursor 0 0).1 + 1) []).length
  else cursor

namespace App

/-- `App::move_cursor_up_in_text` (src/app.rs:451-491): guarded by the
multi-line column and a valid row. -/
def move_cursor_up_in_text (a : App) : App :=
  if a.cursor.col ≠ 3 ∨ a.cursor.row ≥ a.entries.length then a
  else
    { a with text_cursor :=
        textMoveUp (a.entries.getD a.cursor.row TimeEntry.new).time_entry a.text_cursor }

/-- `App::move_cursor_down_in_text` (src/app.rs:493-534). -/
def move_cursor_down_in_text (a : App) : App :=
  if a.cursor.col ≠ 3 ∨ a.cursor.row ≥ a.entries.length then a
  else
    { a with text_cursor :=
        textMoveDown (a.entries.getD a.cursor.row TimeEntry.new).time_entry a.text_cursor }

/-- `App::handle_key` (src/app.rs:166-351), one full key-press dispatch.
Match arms are transliterated in source order; the guarded character arms
become the if-chains inside the `KeyCode.char` cases. -/
def handle_key (a : App) (k : KeyEvent) : App :=
  match a.mode with
  | InputMode.Navigation =>
    match k.code with
    | KeyCode.char c =>
      if c = 'q' then { a with should_quit := true }
      else if c = 's' ∧ k.ctrl then a.exportAction
      else if c = 'x' ∧ k.ctrl then { a with mode := InputMode.ConfirmClearEntries }
      else if c = 'y' ∧ k.ctrl then a.copy_current_field
      else if c = 'd' then
        if a.pending_delete then
          { a with mode := InputMode.ConfirmDeleteEntry, pending_delete := false }
        else { a with pending_delete := true }
      else if c = 'i' then ({ a with pending_delete := false }).enter_edit
      else if c = '?' then { a with pending_delete := false, mode := InputMode.Help }
      else { a with pending_delete := false }
    | KeyCode.tab => ({ a with pending_delete := false }).next_col
    | KeyCode.backTab => ({ a with pending_delete := false }).prev_col
    | KeyCode.up => ({ a with pending_delete := false }).prev_row
    | KeyCode.down => ({ a with pending_delete := false }).next_row
    | KeyCode.left => ({ a with pending_delete := false }).prev_col
    | KeyCode.right => ({ a with pending_delete := false }).next_col
    | _ => { a with pending_delete := false }
  | InputMode.Editing =>
    match k.code with
    | KeyCode.esc => a.exit_edit
    | KeyCode.tab => a.next_col
    | KeyCode.backTab => a.prev_col
    | KeyCode.enter => a.next_col
    | KeyCode.left =>
      if a.text_cursor > 0 then { a with text_cursor := a.text_cursor - 1 } else a
    | KeyCode.right =>
      if a.text_cursor < a.get_current_field_length then
        { a with text_cursor := a.text_cursor + 1 }
      else a
    | KeyCode.home => { a with text_cursor := 0 }
    | KeyCode.endK => { a with text_cursor := a.get_current_field_length }
    | KeyCode.char c => a.insert_char c
    | KeyCode.backspace => a.delete_char
    | _ => a
  | InputMode.ViewingPopup =>
    match k.code with
    | KeyCode.char c =>
      if c = 'i' then a.enter_edit
      else if c = 'y' ∧ k.ctrl then a.copy_current_field
      else a
    | KeyCode.tab => a.next_col
    | KeyCode.backTab => a.prev_col
    | KeyCode.up =>
      if a.popup_scroll > 0 then { a with popup_scroll := a.popup_scroll - 1 } else a
    | KeyCode.down => { a with popup_scroll := a.popup_scroll + 1 }
    | KeyCode.left => a.prev_col
    | KeyCode.right => a.next_col
    | _ => a
  | InputMode.EditingPopup =>
    match k.code with
    | KeyCode.esc => { a with mode := InputMode.ViewingPopup }
    | KeyCode.tab => { a.next_col with popup_scroll := 0 }
    | KeyCode.backTab => { a.prev_col with popup_scroll := 0 }
    | KeyCode.char c =>
      if c = 'y' ∧ k.ctrl then a.copy_current_field else a.insert_char c
    | KeyCode.enter => a.insert_char '\n'
    | KeyCode.up => a.move_cursor_up_in_text
    | KeyCode.down => a.move_cursor_down_in_text
    | KeyCode.left =>
      if a.text_cursor > 0 then { a with text_cursor := a.text_cursor - 1 } else a
    | KeyCode.right =>
      if a.text_cursor < a.get_current_field_length then
        { a with text_cursor := a.text_cursor + 1 }
      else a
    | KeyCode.home => { a with text_cursor := 0 }
    | KeyCode.endK => { a with text_cursor := a.get_current_field_length }
    | KeyCode.backspace => a.delete_char
    | _ => a
  | InputMode.Help => { a with mode := InputMode.Navigation }
  | InputMode.ConfirmDeleteEntry =>
    match k.code with
    | KeyCode.char c =>
      if c = 'y' ∨ c = 'Y' then
        { a.delete_current_entry with mode := InputMode.Navigation }
      else if c = 'n' ∨ c = 'N' then { a with mode := InputMode.Navigation }
      else a
    | KeyCode.esc => { a with mode := InputMode.Navigation }
    | _ => a
  | InputMode.ConfirmClearEntries =>
    match k.code with
    | KeyCode.char c =>
      if c = 'y' ∨ c = 'Y' then
        { a.clear_entries with mode := InputMode.Navigation }
      else if c = 'n' ∨ c = 'N' then { a with mode := InputMode.Navigation }
      else a
    | KeyCode.esc => { a with mode := InputMode.Navigation }
    | _ => a

/-- Initial state built by `App::new` (src/app.rs:54-74) under the
load-failure fallback (one blank entry), including the initial
`update_mode_for_column` call. -/
def init : App :=
  App.update_mode_for_column
    { entries := [TimeEntry.new]
      cursor := Cursor.new
      mode := InputMode.Navigation
      should_quit := false
      popup_scroll := 0
      text_cursor := 0
      pending_delete := false
      saveCount := 0 }

/-- Process a list of key events in arrival order (the event loop of
`App::run`, src/app.rs:144-164, restricted to key presses). -/
def run : App → List KeyEvent → App
  | a, [] => a
  | a, k :: ks => run (a.handle_key k) ks

end App

namespace App

/-- Reachable-state invariant of the cursor/mode machine: nonempty entry
list, in-range cursor row, column within the five fields, and the popup
modes active exactly when the cursor stands on the multi-line column 3. -/
def Inv (a : App) : Prop :=
  a.entries ≠ [] ∧
  a.cursor.row < a.entries.length ∧
  1 ≤ a.cursor.col ∧ a.cursor.col ≤ 5 ∧
  ((a.mode = InputMode.ViewingPopup ∨ a.mode = InputMode.EditingPopup) ↔ a.cursor.col = 3)

lemma update_text_cursor_entries (a : App) : a.update_text_cursor.entries = a.entries := by
  unfold App.update_text_cursor; split <;> rfl

lemma update_text_cursor_cursor (a : App) : a.update_text_cursor.cursor = a.cursor := by
  unfold App.update_text_cursor; split <;> rfl

lemma update_text_cursor_mode (a : App) : a.update_text_cursor.mode = a.mode := by
  unfold App.update_text_cursor; split <;> rfl

lemma update_mode_for_column_entries (a : App) :
    a.update_mode_for_column.entries = a.entries := by
  unfold App.update_mode_for_column; rw [update_text_cursor_entries]

lemma update_mode_for_column_cursor (a : App) :
    a.update_mode_for_column.cursor = a.cursor := by
  unfold App.update_mode_for_column; rw [update_text_cursor_cursor]

lemma update_mode_for_column_mode (a : App) :
    a.update_mode_for_column.mode = normalizeMode a.mode a.cursor.col := by
  unfold App.update_mode_for_column; rw [update_text_cursor_mode]

end App

/-- Normalization establishes the popup/column coupling, provided the
column avoids 3 while the mode is Help or a confirmation mode. -/
lemma popupMode_normalizeMode (m : InputMode) (col : Nat)
    (h : m = InputMode.Help ∨ m = InputMode.ConfirmDeleteEntry ∨
      m = InputMode.ConfirmClearEntries → col ≠ 3) :
    (App.normalizeMode m col = InputMode.ViewingPopup ∨
      App.normalizeMode m col = InputMode.EditingPopup) ↔ col = 3 := by
  by_cases hc : col = 3 <;> cases m <;> simp [App.normalizeMode, hc] <;> tauto

/-- Help and the confirmation modes are not popup modes, so the coupling iff
forces their column away from 3. -/
lemma hc_col_ne (m : InputMode) (col : Nat)
    (h5 : (m = InputMode.ViewingPopup ∨ m = InputMode.EditingPopup) ↔ col = 3) :
    m = InputMode.Help ∨ m = InputMode.ConfirmDeleteEntry ∨
      m = InputMode.ConfirmClearEntries → col ≠ 3 := by
  rintro (rfl | rfl | rfl) hc <;> rcases h5.mpr hc with h | h <;> simp at h

/-- Column is away from 3 whenever the mode is not a popup mode. -/
lemma col_ne_of_not_popup {m : InputMode} {col : Nat}
    (h5 : (m = InputMode.ViewingPopup ∨ m = InputMode.EditingPopup) ↔ col = 3)
    (hnp : ¬(m = InputMode.ViewingPopup ∨ m = InputMode.EditingPopup)) : col ≠ 3 :=
  fun hc => hnp (h5.mpr hc)

namespace App

lemma update_mode_for_column_inv (a : App) (h1 : a.entries ≠ [])
    (h2 : a.cursor.row < a.entries.length) (h3 : 1 ≤ a.cursor.col) (h4 : a.cursor.col ≤ 5)
    (h5 : a.mode = InputMode.Help ∨ a.mode = InputMode.ConfirmDeleteEntry ∨
      a.mode = InputMode.ConfirmClearEntries → a.cursor.col ≠ 3) :
    a.update_mode_for_column.Inv := by
  unfold App.Inv
  rw [update_mode_for_column_entries, update_mode_for_column_cursor, update_mode_for_column_mode]
  exact ⟨h1, h2, h3, h4, popupMode_normalizeMode _ _ h5⟩

lemma save_entries_entries (x : App) : x.save_entries.entries = x.entries := rfl

lemma save_entries_cursor (x : App) : x.save_entries.cursor = x.cursor := rfl

lemma save_entries_mode (x : App) : x.save_entries.mode = x.mode := rfl

lemma auto_save_inv (x : App) (h : x.Inv) : x.auto_save.Inv := h

lemma next_row_inv (a : App) (h : a.Inv) : a.next_row.Inv := by
  obtain ⟨h1, h2, h3, h4, h5⟩ := h
  unfold App.next_row
  split
  · rename_i hlt
    exact update_mode_for_column_inv _ h1
      (by show a.cursor.row + 1 < a.entries.length; omega) h3 h4 (hc_col_ne _ _ h5)
  split
  · refine update_mode_for_column_inv _ ?_ ?_ h3 h4 (hc_col_ne _ _ h5)
    · show a.entries ++ [TimeEntry.new] ≠ []
      simp
    · show a.cursor.row + 1 < (a.entries ++ [TimeEntry.new]).length
      simp only [List.length_append, List.length_singleton]
      omega
  · exact update_mode_for_column_inv _ h1 h2 h3 h4 (hc_col_ne _ _ h5)

lemma prev_row_inv (a : App) (h : a.Inv) : a.prev_row.Inv := by
  obtain ⟨h1, h2, h3, h4, h5⟩ := h
  unfold App.prev_row
  split
  · exact update_mode_for_column_inv _ h1
      (by show a.cursor.row - 1 < a.entries.length; omega) h3 h4 (hc_col_ne _ _ h5)
  · exact update_mode_for_column_inv _ h1 h2 h3 h4 (hc_col_ne _ _ h5)

lemma next_col_inv (a : App) (h : a.Inv)
    (hm : ¬(a.mode = InputMode.Help ∨ a.mode = InputMode.ConfirmDeleteEntry ∨
      a.mode = InputMode.ConfirmClearEntries)) : a.next_col.Inv := by
  obtain ⟨h1, h2, h3, h4, h5⟩ := h
  unfold App.next_col
  split
  · rename_i hlt
    exact update_mode_for_column_inv _ h1 h2
      (by show 1 ≤ a.cursor.col + 1; omega)
      (by show a.cursor.col + 1 ≤ 5; omega)
      (fun hhc => absurd hhc hm)
  · rename_i hge
    have hnp : ¬(a.mode = InputMode.ViewingPopup ∨ a.mode = InputMode.EditingPopup) := by
      intro hp
      have := h5.mp hp
      omega
    have hb := next_row_inv { a with cursor := { a.cursor with col := 1 } }
      ⟨h1, h2, le_refl 1, by show (1 : Nat) ≤ 5; decide,
        iff_of_false hnp (by show (1 : Nat) ≠ 3; decide)⟩
    obtain ⟨b1, b2, b3, b4, b5⟩ := hb
    exact update_mode_for_column_inv _ b1 b2 b3 b4 (hc_col_ne _ _ b5)

lemma prev_col_inv (a : App) (h : a.Inv)
    (hm : ¬(a.mode = InputMode.Help ∨ a.mode = InputMode.ConfirmDeleteEntry ∨
      a.mode = InputMode.ConfirmClearEntries)) : a.prev_col.Inv := by
  obtain ⟨h1, h2, h3, h4, h5⟩ := h
  unfold App.prev_col
  split
  · rename_i hgt
    exact update_mode_for_column_inv _ h1 h2
      (by show 1 ≤ a.cursor.col - 1; omega)
      (by show a.cursor.col - 1 ≤ 5; omega)
      (fun hhc => absurd hhc hm)
  split
  · exact update_mode_for_column_inv _ h1
      (by show a.cursor.row - 1 < a.entries.length; omega)
      (by show (1 : Nat) ≤ 5; decide) (by show (5 : Nat) ≤ 5; decide)
      (fun hhc => absurd hhc hm)
  · exact update_mode_for_column_inv _ h1 h2
      (by show (1 : Nat) ≤ 5; decide) (by show (5 : Nat) ≤ 5; decide)
      (fun hhc => absurd hhc hm)

lemma update_text_cursor_inv (a : App) (h : a.Inv) : a.update_text_cursor.Inv := by
  obtain ⟨h1, h2, h3, h4, h5⟩ := h
  unfold App.Inv
  rw [update_text_cursor_entries, update_text_cursor_cursor, update_text_cursor_mode]
  exact ⟨h1, h2, h3, h4, h5⟩

lemma enter_edit_inv (a : App) (h : a.Inv) : a.enter_edit.Inv := by
  obtain ⟨h1, h2, h3, h4, h5⟩ := h
  unfold App.enter_edit
  apply update_text_cursor_inv
  cases hmode : a.mode <;> dsimp only
  case ViewingPopup =>
    exact ⟨h1, h2, h3, h4, iff_of_true (Or.inr rfl) (h5.mp (Or.inl hmode))⟩
  all_goals
    split
  all_goals rename_i hc
  all_goals first
    | exact ⟨h1, h2, h3, h4, iff_of_true (Or.inr rfl) hc⟩
    | exact ⟨h1, h2, h3, h4, iff_of_false (by simp) hc⟩

lemma exit_edit_inv (a : App) (h : a.Inv) (hc : a.cursor.col ≠ 3) : a.exit_edit.Inv := by
  obtain ⟨h1, h2, h3, h4, h5⟩ := h
  unfold App.exit_edit
  refine auto_save_inv _ ?_
  split
  · refine ⟨?_, ?_, h3, h4, iff_of_false (by simp) hc⟩
    · show a.entries ++ [TimeEntry.new] ≠ []
      simp
    · show a.cursor.row < (a.entries ++ [TimeEntry.new]).length
      simp only [List.length_append, List.length_singleton]
      omega
  · exact ⟨h1, h2, h3, h4, iff_of_false (by simp) hc⟩

lemma insert_char_inv (a : App) (c : Char) (h : a.Inv) : (a.insert_char c).Inv := by
  obtain ⟨h1, h2, h3, h4, h5⟩ := h
  unfold App.insert_char
  split
  · exact ⟨h1, h2, h3, h4, h5⟩
  split
  · exact ⟨h1, h2, h3, h4, h5⟩
  split
  · refine auto_save_inv _ ⟨?_, ?_, h3, h4, h5⟩
    · show a.entries.set a.cursor.row _ ≠ []
      intro hnil
      have := congrArg List.length hnil
      simp only [List.length_set, List.length_nil] at this
      omega
    · show a.cursor.row < (a.entries.set a.cursor.row _).length
      simp only [List.length_set]
      exact h2
  · exact ⟨h1, h2, h3, h4, h5⟩

lemma delete_char_inv (a : App) (h : a.Inv) : a.delete_char.Inv := by
  obtain ⟨h1, h2, h3, h4, h5⟩ := h
  unfold App.delete_char
  split
  · exact ⟨h1, h2, h3, h4, h5⟩
  split
  · exact ⟨h1, h2, h3, h4, h5⟩
  split
  · refine auto_save_inv _ ⟨?_, ?_, h3, h4, h5⟩
    · show a.entries.set a.cursor.row _ ≠ []
      intro hnil
      have := congrArg List.length hnil
      simp only [List.length_set, List.length_nil] at this
      omega
    · show a.cursor.row < (a.entries.set a.cursor.row _).length
      simp only [List.length_set]
      exact h2
  · exact ⟨h1, h2, h3, h4, h5⟩

lemma move_cursor_up_in_text_inv (a : App) (h : a.Inv) : a.move_cursor_up_in_text.Inv := by
  obtain ⟨h1, h2, h3, h4, h5⟩ := h
  unfold App.move_cursor_up_in_text
  split <;> exact ⟨h1, h2, h3, h4, h5⟩

lemma move_cursor_down_in_text_inv (a : App) (h : a.Inv) : a.move_cursor_down_in_text.Inv := by
  obtain ⟨h1, h2, h3, h4, h5⟩ := h
  unfold App.move_cursor_down_in_text
  split <;> exact ⟨h1, h2, h3, h4, h5⟩

lemma delete_current_entry_shape (a : App) (h1 : a.entries ≠ [])
    (h2 : a.cursor.row < a.entries.length) :
    a.delete_current_entry.entries ≠ [] ∧
    a.delete_current_entry.cursor.row < a.delete_current_entry.entries.length ∧
    a.delete_current_entry.cursor.col = 1 := by
  have hlen : a.entries.length ≠ 0 := fun hz => h1 (List.length_eq_zero.mp hz)
  unfold App.delete_current_entry
  rw [save_entries_entries, save_entries_cursor,
    update_mode_for_column_entries, update_mode_for_column_cursor]
  split
  · rename_i hle
    refine ⟨?_, ?_, rfl⟩
    · show a.entries.set 0 TimeEntry.new ≠ []
      intro hnil
      have := congrArg List.length hnil
      simp only [List.length_set, List.length_nil] at this
      omega
    · show (0 : Nat) < (a.entries.set 0 TimeEntry.new).length
      simp only [List.length_set]
      omega
  · rename_i hgt
    have herase : (a.entries.eraseIdx a.cursor.row).length = a.entries.length - 1 :=
      List.length_eraseIdx_of_lt h2
    split
    · rename_i hclamp
      refine ⟨?_, ?_, rfl⟩
      · show a.entries.eraseIdx a.cursor.row ≠ []
        intro hnil
        have := congrArg List.length hnil
        simp only [List.length_nil] at this
        omega
      · show (a.entries.eraseIdx a.cursor.row).length - 1 <
          (a.entries.eraseIdx a.cursor.row).length
        omega
    · rename_i hfit
      refine ⟨?_, ?_, rfl⟩
      · show a.entries.eraseIdx a.cursor.row ≠ []
        intro hnil
        have := congrArg List.length hnil
        simp only [List.length_nil] at this
        omega
      · show a.cursor.row < (a.entries.eraseIdx a.cursor.row).length
        omega

end App

namespace App

lemma clear_entries_nav_inv (a : App) :
    ({ a.clear_entries with mode := InputMode.Navigation }).Inv := by
  refine ⟨?_, ?_, ?_, ?_, ?_⟩
  · show ([TimeEntry.new] : List TimeEntry) ≠ []
    simp
  · show (0 : Nat) < ([TimeEntry.new] : List TimeEntry).length
    decide
  · show (1 : Nat) ≤ 1
    decide
  · show (1 : Nat) ≤ 5
    decide
  · show (InputMode.Navigation = InputMode.ViewingPopup ∨
      InputMode.Navigation = InputMode.EditingPopup) ↔ (1 : Nat) = 3
    simp

lemma delete_nav_inv (a : App) (h1 : a.entries ≠ []) (h2 : a.cursor.row < a.entries.length) :
    ({ a.delete_current_entry with mode := InputMode.Navigation }).Inv := by
  obtain ⟨d1, d2, d3⟩ := delete_current_entry_shape a h1 h2
  refine ⟨d1, d2, ?_, ?_, ?_⟩
  · show 1 ≤ a.delete_current_entry.cursor.col
    omega
  · show a.delete_current_entry.cursor.col ≤ 5
    omega
  · refine iff_of_false (by simp) ?_
    show a.delete_current_entry.cursor.col ≠ 3
    omega

/-- One key press preserves the reachable-state invariant. -/
theorem handle_key_inv (a : App) (k : KeyEvent) (h : a.Inv) : (a.handle_key k).Inv := by
  obtain ⟨code, ctrl⟩ := k
  obtain ⟨h1, h2, h3, h4, h5⟩ := h
  unfold App.handle_key
  cases hmode : a.mode
  case Navigation =>
    have hnp : ¬(a.mode = InputMode.ViewingPopup ∨ a.mode = InputMode.EditingPopup) := by
      rw [hmode]; simp
    have hc3 : a.cursor.col ≠ 3 := col_ne_of_not_popup h5 hnp
    have h5' := h5
    rw [hmode] at h5'
    cases code <;> dsimp only
    case char c =>
      split_ifs
      all_goals first
        | exact ⟨h1, h2, h3, h4, h5'⟩
        | exact ⟨h1, h2, h3, h4, h5⟩
        | exact enter_edit_inv _ ⟨h1, h2, h3, h4, h5'⟩
        | exact ⟨h1, h2, h3, h4, iff_of_false (by simp) hc3⟩
    case tab => exact next_col_inv _ ⟨h1, h2, h3, h4, h5'⟩ (by simp)
    case backTab => exact prev_col_inv _ ⟨h1, h2, h3, h4, h5'⟩ (by simp)
    case up => exact prev_row_inv _ ⟨h1, h2, h3, h4, h5'⟩
    case down => exact next_row_inv _ ⟨h1, h2, h3, h4, h5'⟩
    case left => exact prev_col_inv _ ⟨h1, h2, h3, h4, h5'⟩ (by simp)
    case right => exact next_col_inv _ ⟨h1, h2, h3, h4, h5'⟩ (by simp)
    all_goals exact ⟨h1, h2, h3, h4, h5'⟩
  case Editing =>
    have hnp : ¬(a.mode = InputMode.ViewingPopup ∨ a.mode = InputMode.EditingPopup) := by
      rw [hmode]; simp
    have hc3 : a.cursor.col ≠ 3 := col_ne_of_not_popup h5 hnp
    have hmm : ¬(a.mode = InputMode.Help ∨ a.mode = InputMode.ConfirmDeleteEntry ∨
        a.mode = InputMode.ConfirmClearEntries) := by rw [hmode]; simp
    have h5' := h5
    rw [hmode] at h5'
    cases code <;> dsimp only
    case esc => exact exit_edit_inv _ ⟨h1, h2, h3, h4, h5⟩ hc3
    case tab => exact next_col_inv _ ⟨h1, h2, h3, h4, h5⟩ hmm
    case backTab => exact prev_col_inv _ ⟨h1, h2, h3, h4, h5⟩ hmm
    case enter => exact next_col_inv _ ⟨h1, h2, h3, h4, h5⟩ hmm
    case left =>
      split <;> first
        | exact ⟨h1, h2, h3, h4, h5⟩
        | exact ⟨h1, h2, h3, h4, h5'⟩
    case right =>
      split <;> first
        | exact ⟨h1, h2, h3, h4, h5⟩
        | exact ⟨h1, h2, h3, h4, h5'⟩
    case char c => exact insert_char_inv _ _ ⟨h1, h2, h3, h4, h5⟩
    case backspace => exact delete_char_inv _ ⟨h1, h2, h3, h4, h5⟩
    all_goals first
      | exact ⟨h1, h2, h3, h4, h5⟩
      | exact ⟨h1, h2, h3, h4, h5'⟩
  case ViewingPopup =>
    have hmm : ¬(a.mode = InputMode.Help ∨ a.mode = InputMode.ConfirmDeleteEntry ∨
        a.mode = InputMode.ConfirmClearEntries) := by rw [hmode]; simp
    have h5' := h5
    rw [hmode] at h5'
    cases code <;> dsimp only
    case char c =>
      split_ifs
      all_goals first
        | exact ⟨h1, h2, h3, h4, h5⟩
        | exact enter_edit_inv _ ⟨h1, h2, h3, h4, h5⟩
    case tab => exact next_col_inv _ ⟨h1, h2, h3, h4, h5⟩ hmm
    case backTab => exact prev_col_inv _ ⟨h1, h2, h3, h4, h5⟩ hmm
    case left => exact prev_col_inv _ ⟨h1, h2, h3, h4, h5⟩ hmm
    case right => exact next_col_inv _ ⟨h1, h2, h3, h4, h5⟩ hmm
    case up =>
      split <;> first
        | exact ⟨h1, h2, h3, h4, h5⟩
        | exact ⟨h1, h2, h3, h4, h5'⟩
    case down => exact ⟨h1, h2, h3, h4, h5'⟩
    all_goals first
      | exact ⟨h1, h2, h3, h4, h5⟩
  case EditingPopup =>
    have hmm : ¬(a.mode = InputMode.Help ∨ a.mode = InputMode.ConfirmDeleteEntry ∨
        a.mode = InputMode.ConfirmClearEntries) := by rw [hmode]; simp
    have col3 : a.cursor.col = 3 := h5.mp (Or.inr hmode)
    have h5' := h5
    rw [hmode] at h5'
    cases code <;> dsimp only
    case esc => exact ⟨h1, h2, h3, h4, iff_of_true (Or.inl rfl) col3⟩
    case tab =>
      obtain ⟨g1, g2, g3, g4, g5⟩ := next_col_inv a ⟨h1, h2, h3, h4, h5⟩ hmm
      exact ⟨g1, g2, g3, g4, g5⟩
    case backTab =>
      obtain ⟨g1, g2, g3, g4, g5⟩ := prev_col_inv a ⟨h1, h2, h3, h4, h5⟩ hmm
      exact ⟨g1, g2, g3, g4, g5⟩
    case char c =>
      split
      · exact ⟨h1, h2, h3, h4, h5⟩
      · exact insert_char_inv _ _ ⟨h1, h2, h3, h4, h5⟩
    case enter => exact insert_char_inv _ _ ⟨h1, h2, h3, h4, h5⟩
    case up => exact move_cursor_up_in_text_inv _ ⟨h1, h2, h3, h4, h5⟩
    case down => exact move_cursor_down_in_text_inv _ ⟨h1, h2, h3, h4, h5⟩
    case left =>
      split <;> first
        | exact ⟨h1, h2, h3, h4, h5⟩
        | exact ⟨h1, h2, h3, h4, h5'⟩
    case right =>
      split <;> first
        | exact ⟨h1, h2, h3, h4, h5⟩
        | exact ⟨h1, h2, h3, h4, h5'⟩
    case backspace => exact delete_char_inv _ ⟨h1, h2, h3, h4, h5⟩
    all_goals first
      | exact ⟨h1, h2, h3, h4, h5⟩
      | exact ⟨h1, h2, h3, h4, h5'⟩
  case Help =>
    have hnp : ¬(a.mode = InputMode.ViewingPopup ∨ a.mode = InputMode.EditingPopup) := by
      rw [hmode]; simp
    have hc3 : a.cursor.col ≠ 3 := col_ne_of_not_popup h5 hnp
    exact ⟨h1, h2, h3, h4, iff_of_false (by simp) hc3⟩
  case ConfirmDeleteEntry =>
    have hnp : ¬(a.mode = InputMode.ViewingPopup ∨ a.mode = InputMode.EditingPopup) := by
      rw [hmode]; simp
    have hc3 : a.cursor.col ≠ 3 := col_ne_of_not_popup h5 hnp
    have h5' := h5
    rw [hmode] at h5'
    cases code <;> dsimp only
    case char c =>
      split_ifs
      all_goals first
        | exact ⟨h1, h2, h3, h4, h5⟩
        | exact ⟨h1, h2, h3, h4, h5'⟩
        | exact delete_nav_inv a h1 h2
        | exact ⟨h1, h2, h3, h4, iff_of_false (by simp) hc3⟩
    case esc => exact ⟨h1, h2, h3, h4, iff_of_false (by simp) hc3⟩
    all_goals first
      | exact ⟨h1, h2, h3, h4, h5⟩
  case ConfirmClearEntries =>
    have hnp : ¬(a.mode = InputMode.ViewingPopup ∨ a.mode = InputMode.EditingPopup) := by
      rw [hmode]; simp
    have hc3 : a.cursor.col ≠ 3 := col_ne_of_not_popup h5 hnp
    have h5' := h5
    rw [hmode] at h5'
    cases code <;> dsimp only
    case char c =>
      split_ifs
      all_goals first
        | exact ⟨h1, h2, h3, h4, h5⟩
        | exact ⟨h1, h2, h3, h4, h5'⟩
        | exact clear_entries_nav_inv a
        | exact ⟨h1, h2, h3, h4, iff_of_false (by simp) hc3⟩
    case esc => exact ⟨h1, h2, h3, h4, iff_of_false (by simp) hc3⟩
    all_goals first
      | exact ⟨h1, h2, h3, h4, h5⟩

/-- Processing any key sequence preserves the invariant. -/
theorem run_inv (ks : List KeyEvent) (a : App) (h : a.Inv) : (App.run a ks).Inv := by
  induction ks generalizing a with
  | nil => exact h
  | cons k ks ih => exact ih _ (handle_key_inv a k h)

/-- The startup state satisfies the invariant. -/
theorem init_inv : App.init.Inv := by
  refine ⟨?_, ?_, ?_, ?_, ?_⟩ <;> decide

end App

namespace App

lemma update_text_cursor_pending (a : App) :
    a.update_text_cursor.pending_delete = a.pending_delete := by
  unfold App.update_text_cursor; split <;> rfl

lemma update_mode_for_column_pending (a : App) :
    a.update_mode_for_column.pending_delete = a.pending_delete := by
  unfold App.update_mode_for_column; rw [update_text_cursor_pending]

lemma next_row_pending (a : App) : a.next_row.pending_delete = a.pending_delete := by
  unfold App.next_row
  rw [update_mode_for_column_pending]
  split
  · rfl
  split <;> rfl

lemma prev_row_pending (a : App) : a.prev_row.pending_delete = a.pending_delete := by
  unfold App.prev_row
  rw [update_mode_for_column_pending]
  split <;> rfl

lemma next_col_pending (a : App) : a.next_col.pending_delete = a.pending_delete := by
  unfold App.next_col
  rw [update_mode_for_column_pending]
  split
  · rfl
  · rw [next_row_pending]

lemma prev_col_pending (a : App) : a.prev_col.pending_delete = a.pending_delete := by
  unfold App.prev_col
  rw [update_mode_for_column_pending]
  split
  · rfl
  split <;> rfl

lemma enter_edit_pending (a : App) : a.enter_edit.pending_delete = a.pending_delete := by
  unfold App.enter_edit
  rw [update_text_cursor_pending]
  cases hm : a.mode <;> dsimp only <;> first | rfl | (split <;> rfl)

/-- Reduction of `handle_key` in Navigation mode on a character key: the
transliterated arm chain of src/app.rs:168-232. -/
lemma handle_key_nav_char (a : App) (hm : a.mode = InputMode.Navigation)
    (c : Char) (b : Bool) :
    a.handle_key ⟨KeyCode.char c, b⟩ =
      (if c = 'q' then { a with should_quit := true }
      else if c = 's' ∧ b then a.exportAction
      else if c = 'x' ∧ b then { a with mode := InputMode.ConfirmClearEntries }
      else if c = 'y' ∧ b then a.copy_current_field
      else if c = 'd' then
        if a.pending_delete then
          { a with mode := InputMode.ConfirmDeleteEntry, pending_delete := false }
        else { a with pending_delete := true }
      else if c = 'i' then ({ a with pending_delete := false }).enter_edit
      else if c = '?' then { a with pending_delete := false, mode := InputMode.Help }
      else { a with pending_delete := false }) := by
  obtain ⟨e, cur, m, sq, ps, tc, pd, sc⟩ := a
  dsimp only at hm
  subst hm
  rfl

/-- Reduction of `handle_key` in ConfirmDeleteEntry mode on a character key
(src/app.rs:330-339). -/
lemma handle_key_cde_char (a : App) (hm : a.mode = InputMode.ConfirmDeleteEntry)
    (c : Char) (b : Bool) :
    a.handle_key ⟨KeyCode.char c, b⟩ =
      (if c = 'y' ∨ c = 'Y' then
        { a.delete_current_entry with mode := InputMode.Navigation }
      else if c = 'n' ∨ c = 'N' then { a with mode := InputMode.Navigation }
      else a) := by
  obtain ⟨e, cur, m, sq, ps, tc, pd, sc⟩ := a
  dsimp only at hm
  subst hm
  rfl

/-- Reduction of `handle_key` in Editing mode on Esc (src/app.rs:234). -/
lemma handle_key_editing_esc (a : App) (hm : a.mode = InputMode.Editing) (b : Bool) :
    a.handle_key ⟨KeyCode.esc, b⟩ = a.exit_edit := by
  obtain ⟨e, cur, m, sq, ps, tc, pd, sc⟩ := a
  dsimp only at hm
  subst hm
  rfl

/-- Reduction of `handle_key` in Editing mode on a character key
(src/app.rs:256). -/
lemma handle_key_editing_char (a : App) (hm : a.mode = InputMode.Editing)
    (c : Char) (b : Bool) :
    a.handle_key ⟨KeyCode.char c, b⟩ = a.insert_char c := by
  obtain ⟨e, cur, m, sq, ps, tc, pd, sc⟩ := a
  dsimp only at hm
  subst hm
  rfl

/-- Reduction of `handle_key` in EditingPopup mode on Esc (src/app.rs:282-285):
back to ViewingPopup, no other effect. -/
lemma handle_key_ep_esc (a : App) (hm : a.mode = InputMode.EditingPopup) (b : Bool) :
    a.handle_key ⟨KeyCode.esc, b⟩ = { a with mode := InputMode.ViewingPopup } := by
  obtain ⟨e, cur, m, sq, ps, tc, pd, sc⟩ := a
  dsimp only at hm
  subst hm
  rfl

end App

/-- Locating the line that contains a character offset, written from the
movement description: the offset lies in the first line when it does not
exceed that line's length, otherwise recurse into the remaining lines with
the offset reduced by the line's length plus one separator; `none` when the
offset lies beyond every line. -/
def locateLine : List (List Char) → Nat → Option (Nat × Nat)
  | [], _ => none
  | l :: ls, d =>
    if d ≤ l.length then some (0, d)
    else (locateLine ls (d - (l.length + 1))).map (fun r => (r.1 + 1, r.2))

lemma locateLine_lt_length {ls : List (List Char)} {d : Nat} {r : Nat × Nat}
    (h : locateLine ls d = some r) : r.1 < ls.length := by
  induction ls generalizing d r with
  | nil => simp [locateLine] at h
  | cons l rest ih =>
    rw [locateLine] at h
    split at h
    · cases h
      simp
    · rcases Option.map_eq_some'.mp h with ⟨r', hr', hmap⟩
      subst hmap
      have := ih hr'
      simp
      omega

/-- The source's accumulator loop agrees with the structural line locator:
with accumulated character count `cc` and line index `idx`, the loop returns
the located pair shifted by `idx`, or the `(0, 0)` initializers when the
offset lies beyond every line. -/
lemma findLineAux_eq_locateLine (ls : List (List Char)) (c idx cc : Nat) (hcc : cc ≤ c) :
    findLineAux ls c idx cc =
      (match locateLine ls (c - cc) with
        | some r => (idx + r.1, r.2)
        | none => (0, 0)) := by
  induction ls generalizing idx cc with
  | nil => rfl
  | cons l rest ih =>
    rw [findLineAux, locateLine]
    by_cases hbreak : cc + l.length ≥ c
    · rw [if_pos hbreak, if_pos (by omega : c - cc ≤ l.length)]
      simp
    · rw [if_neg hbreak, if_neg (by omega : ¬(c - cc ≤ l.length))]
      rw [ih (idx + 1) (cc + l.length + 1) (by omega)]
      have harith : c - cc - (l.length + 1) = c - (cc + l.length + 1) := by omega
      rw [harith]
      cases hloc : locateLine rest (c - (cc + l.length + 1)) with
      | none => rfl
      | some r =>
        simp only [Option.map_some']
        rw [Nat.add_assoc, Nat.add_comm 1 r.1]

/-- Vertical move up, written from the movement description over the
recognized lines: locate the cursor's line, then go to the clamped column of
the previous line; a no-op on the first line or when the cursor lies beyond
every recognized line. -/
def specMoveUp (t : List Char) (c : Nat) : Nat :=
  if (rustLines t).isEmpty then c
  else
    match locateLine (rustLines t) c with
    | none => c
    | some r =>
      if r.1 = 0 then c
      else linesPrefixLen (rustLines t) (r.1 - 1) +
        min r.2 (((rustLines t).getD (r.1 - 1) []).length)

/-- Vertical move down, written from the movement description over the
recognized lines: locate the cursor's line, then go to the clamped column of
the next line; a no-op on the last line.  When the cursor lies beyond every
recognized line the loop's `(0, 0)` default applies: with at least two lines
the cursor jumps to the start of the second line, otherwise nothing moves. -/
def specMoveDown (t : List Char) (c : Nat) : Nat :=
  if (rustLines t).isEmpty then c
  else
    match locateLine (rustLines t) c with
    | none => if 2 ≤ (rustLines t).length then linesPrefixLen (rustLines t) 1 else c
    | some r =>
      if r.1 + 1 < (rustLines t).length then
        linesPrefixLen (rustLines t) (r.1 + 1) +
          min r.2 (((rustLines t).getD (r.1 + 1) []).length)
      else c

lemma textMoveUp_eq_specMoveUp (t : List Char) (c : Nat) :
    textMoveUp t c = specMoveUp t c := by
  unfold textMoveUp specMoveUp
  by_cases hempty : (rustLines t).isEmpty
  · rw [if_pos hempty, if_pos hempty]
  · rw [if_neg hempty, if_neg hempty]
    rw [findLineAux_eq_locateLine (rustLines t) c 0 0 (Nat.zero_le c), Nat.sub_zero]
    cases hloc : locateLine (rustLines t) c with
    | none =>
      dsimp only
      rw [if_neg (by omega : ¬((0 : Nat), (0 : Nat)).1 > 0)]
    | some r =>
      dsimp only
      by_cases hz : r.1 = 0
      · rw [if_neg (by omega : ¬0 + r.1 > 0), if_pos hz]
      · rw [if_pos (by omega : 0 + r.1 > 0), if_neg hz, Nat.zero_add]

lemma textMoveDown_eq_specMoveDown (t : List Char) (c : Nat) :
    textMoveDown t c = specMoveDown t c := by
  unfold textMoveDown specMoveDown
  by_cases hempty : (rustLines t).isEmpty
  · rw [if_pos hempty, if_pos hempty]
  · rw [if_neg hempty, if_neg hempty]
    rw [findLineAux_eq_locateLine (rustLines t) c 0 0 (Nat.zero_le c), Nat.sub_zero]
    cases hloc : locateLine (rustLines t) c with
    | none =>
      dsimp only
      by_cases h2 : 2 ≤ (rustLines t).length
      · rw [if_pos (by omega : (0 : Nat) < (rustLines t).length - 1), if_pos h2]
        have : min (0 : Nat) (((rustLines t).getD 1 []).length) = 0 := Nat.zero_min _
        rw [this, Nat.add_zero]
      · rw [if_neg (by omega : ¬(0 : Nat) < (rustLines t).length - 1), if_neg h2]
    | some r =>
      have hlen : 1 ≤ (rustLines t).length := by
        cases hL : rustLines t with
        | nil => rw [hL] at hempty; simp at hempty
        | cons x xs => simp
      dsimp only
      by_cases hlast : r.1 + 1 < (rustLines t).length
      · rw [if_pos (by omega : 0 + r.1 < (rustLines t).length - 1), if_pos hlast,
          Nat.zero_add]
      · rw [if_neg (by omega : ¬0 + r.1 < (rustLines t).length - 1), if_neg hlast]

/-- Plain line decomposition used by the C6 claim's wording: the text is
split into lines on the line-break character, so a trailing separator yields
a trailing empty line (unlike `rustLines`, which drops it). -/
def claimLines (s : List Char) : List (List Char) := s.splitOn '\n'

/-- Vertical move up as the C6 claim words it: locate the line containing
the offset within the plain line decomposition and go to the clamped column
of the previous line; a no-op only on the first line. -/
def claimMoveUp (t : List Char) (c : Nat) : Nat :=
  match locateLine (claimLines t) c with
  | none => c
  | some r =>
    if r.1 = 0 then c
    else linesPrefixLen (claimLines t) (r.1 - 1) +
      min r.2 (((claimLines t).getD (r.1 - 1) []).length)

/-- Export rows as the C8 claim words it: walk the entries in order carrying
the 0-based index, keep exactly the entries that are not entirely empty. -/
def export_rows_by_spec : Nat → List TimeEntry → List ExportRow
  | _, [] => []
  | i, e :: rest =>
    if e.is_entirely_empty then export_rows_by_spec (i + 1) rest
    else mkExportRow i e :: export_rows_by_spec (i + 1) rest

lemma filterMap_enumFrom_export (i : Nat) (es : List TimeEntry) :
    (List.enumFrom i es).filterMap
      (fun p => if p.2.is_entirely_empty then none else some (mkExportRow p.1 p.2)) =
      export_rows_by_spec i es := by
  induction es generalizing i with
  | nil => rfl
  | cons e rest ih =>
    rw [List.enumFrom_cons, List.filterMap_cons, export_rows_by_spec]
    by_cases he : e.is_entirely_empty <;> simp [he, ih]

lemma export_csv_rows_eq_spec (es : List TimeEntry) :
    export_csv_rows es = export_rows_by_spec 0 es :=
  filterMap_enumFrom_export 0 es

lemma export_rows_by_spec_length (i : Nat) (es : List TimeEntry) :
    (export_rows_by_spec i es).length =
      (es.filter (fun e => !e.is_entirely_empty)).length := by
  induction es generalizing i with
  | nil => rfl
  | cons e rest ih =>
    rw [export_rows_by_spec, List.filter_cons]
    by_cases he : e.is_entirely_empty
    · simp [he, ih]
    · simp [he, ih]

namespace TimeEntry

lemma getField_setField (e : TimeEntry) (col : Nat) (v : List Char)
    (h3 : 1 ≤ col) (h4 : col ≤ 5) : (e.setField col v).getField col = v := by
  interval_cases col <;> rfl

end TimeEntry

lemma getD_set_self (l : List TimeEntry) (n : Nat) (e : TimeEntry) (h : n < l.length) :
    (l.set n e).getD n TimeEntry.new = e := by
  unfold List.getD
  rw [List.get?_eq_getElem?, List.getElem?_set_eq_of_lt e h]
  rfl

lemma parse_time_nil : TimeEntry.parse_time [] = none := rfl

lemma parse_time_isEmpty_false {l : List Char} {v : Nat}
    (h : TimeEntry.parse_time l = some v) : l.isEmpty = false := by
  cases l with
  | nil => rw [parse_time_nil] at h; cases h
  | cons c cs => rfl

/-- Navigation-only key: Tab, Shift-Tab or an arrow key. -/
def navKey (k : KeyEvent) : Prop :=
  k.code = KeyCode.tab ∨ k.code = KeyCode.backTab ∨ k.code = KeyCode.up ∨
    k.code = KeyCode.down ∨ k.code = KeyCode.left ∨ k.code = KeyCode.right

instance (k : KeyEvent) : Decidable (navKey k) := by
  unfold navKey
  infer_instance

/-- C1: after any key sequence from the initial state, the mode is
ViewingPopup or EditingPopup exactly when the cursor column is 3, provided
the mode is not Help or a confirmation mode; and the column normalization of
`update_mode_for_column` leaves Help and the confirmation modes unchanged
for every column. -/
theorem C1_mode_column_coupling :
    (∀ ks : List KeyEvent,
      ¬((App.run App.init ks).mode = InputMode.Help ∨
        (App.run App.init ks).mode = InputMode.ConfirmDeleteEntry ∨
        (App.run App.init ks).mode = InputMode.ConfirmClearEntries) →
      (((App.run App.init ks).mode = InputMode.ViewingPopup ∨
        (App.run App.init ks).mode = InputMode.EditingPopup) ↔
        (App.run App.init ks).cursor.col = 3)) ∧
    (∀ b : App,
      b.mode = InputMode.Help ∨ b.mode = InputMode.ConfirmDeleteEntry ∨
        b.mode = InputMode.ConfirmClearEntries →
      b.update_mode_for_column.mode = b.mode) := by
  constructor
  · intro ks _
    exact (App.run_inv ks App.init App.init_inv).2.2.2.2
  · intro b hb
    rw [App.update_mode_for_column_mode]
    rcases hb with hb | hb | hb <;> rw [hb] <;>
      by_cases hc : b.cursor.col = 3 <;> simp [App.normalizeMode, hc]

/-- Witness for C1: two Tab presses land on column 3 (in ViewingPopup), and
normalization leaves a Help-mode state on column 3 in Help. -/
theorem C1_mode_column_coupling_witness :
    (App.run App.init [⟨KeyCode.tab, false⟩, ⟨KeyCode.tab, false⟩]).cursor.col = 3 ∧
    (App.update_mode_for_column
      { entries := [TimeEntry.new], cursor := ⟨0, 3⟩, mode := InputMode.Help,
        should_quit := false, popup_scroll := 0, text_cursor := 0,
        pending_delete := false, saveCount := 0 }).mode = InputMode.Help :=
  ⟨(C1_mode_column_coupling.1 [⟨KeyCode.tab, false⟩, ⟨KeyCode.tab, false⟩]
      (by decide)).mp (by decide),
    C1_mode_column_coupling.2 _ (Or.inl rfl)⟩

/-- C3: for every sequence of navigation-only key events from the initial
state, the cursor row stays below the entry count and the column stays in
1..5; quantifying over all such sequences covers the state after every
event of any such sequence. -/
theorem C3_cursor_bounds (ks : List KeyEvent) (_hnav : ∀ k ∈ ks, navKey k) :
    (App.run App.init ks).cursor.row < (App.run App.init ks).entries.length ∧
    (App.run App.init ks).cursor.col ∈ ([1, 2, 3, 4, 5] : List Nat) := by
  obtain ⟨_, h2, h3, h4, _⟩ := App.run_inv ks App.init App.init_inv
  refine ⟨h2, ?_⟩
  simp only [List.mem_cons, List.not_mem_nil, or_false]
  omega

/-- Witness for C3 at the sequence Tab, Up. -/
theorem C3_cursor_bounds_witness :
    (∀ k ∈ ([⟨KeyCode.tab, false⟩, ⟨KeyCode.up, false⟩] : List KeyEvent), navKey k) ∧
    ((App.run App.init [⟨KeyCode.tab, false⟩, ⟨KeyCode.up, false⟩]).cursor.row <
        (App.run App.init [⟨KeyCode.tab, false⟩, ⟨KeyCode.up, false⟩]).entries.length ∧
      (App.run App.init [⟨KeyCode.tab, false⟩, ⟨KeyCode.up, false⟩]).cursor.col ∈
        ([1, 2, 3, 4, 5] : List Nat)) :=
  ⟨by decide, C3_cursor_bounds _ (by decide)⟩

/-- C6 counterexample: in the text `'a'` then a line break, with the cursor
at offset 2 (on the empty second line created by the trailing separator),
the claim's line-aware rule moves Up to offset 0 of the previous line, but
the code's splitter drops the trailing empty line, its locate loop finds no
line, and Up leaves the cursor at offset 2. -/
theorem C6_counterexample :
    claimMoveUp ('a' :: '\n' :: []) 2 = 0 ∧
    textMoveUp ('a' :: '\n' :: []) 2 = 2 := by
  decide

/-- C6 (amended): vertical text-cursor movement agrees everywhere with the
line-aware specification computed over the lines recognized by the code's
splitter (which drops a trailing empty line): within a located line, Up and
Down move to the clamped column of the adjacent line and are no-ops at the
first/last line; when the cursor lies beyond every recognized line (text
ending in a separator with the cursor at the very end), Up is a no-op and
Down jumps to the start of the second line when one exists.  The App-level
handlers on the multi-line column realize exactly this movement. -/
theorem C6_line_movement (t : List Char) (c : Nat) :
    textMoveUp t c = specMoveUp t c ∧ textMoveDown t c = specMoveDown t c ∧
    (∀ a : App, a.cursor.col = 3 → a.cursor.row < a.entries.length →
      a.move_cursor_up_in_text.text_cursor =
        specMoveUp (a.entries.getD a.cursor.row TimeEntry.new).time_entry a.text_cursor ∧
      a.move_cursor_down_in_text.text_cursor =
        specMoveDown (a.entries.getD a.cursor.row TimeEntry.new).time_entry a.text_cursor) := by
  refine ⟨textMoveUp_eq_specMoveUp t c, textMoveDown_eq_specMoveDown t c, ?_⟩
  intro a hc hr
  constructor
  · unfold App.move_cursor_up_in_text
    rw [if_neg (by omega)]
    exact textMoveUp_eq_specMoveUp _ _
  · unfold App.move_cursor_down_in_text
    rw [if_neg (by omega)]
    exact textMoveDown_eq_specMoveDown _ _

/-- Witness for C6 at the state reached by two Tab presses (column 3). -/
theorem C6_line_movement_witness :
    (App.run App.init [⟨KeyCode.tab, false⟩, ⟨KeyCode.tab, false⟩]).cursor.col = 3 ∧
    (App.run App.init
        [⟨KeyCode.tab, false⟩, ⟨KeyCode.tab, false⟩]).move_cursor_up_in_text.text_cursor =
      specMoveUp ((App.run App.init [⟨KeyCode.tab, false⟩, ⟨KeyCode.tab, false⟩]).entries.getD
          (App.run App.init [⟨KeyCode.tab, false⟩, ⟨KeyCode.tab, false⟩]).cursor.row
          TimeEntry.new).time_entry
        (App.run App.init [⟨KeyCode.tab, false⟩, ⟨KeyCode.tab, false⟩]).text_cursor :=
  ⟨by decide, ((C6_line_movement [] 0).2.2 _ (by decide) (by decide)).1⟩

/-- C7 counterexample: from the initial state (row 0, column 1), Shift-Tab
moves the cursor to column 5 of row 0 instead of leaving it unchanged. -/
theorem C7_counterexample :
    App.init.cursor = ⟨0, 1⟩ ∧
    (App.init.handle_key ⟨KeyCode.backTab, false⟩).cursor = ⟨0, 5⟩ ∧
    ¬(App.init.handle_key ⟨KeyCode.backTab, false⟩).cursor = App.init.cursor := by
  decide

/-- C7 (amended): retreating before column 1 always wraps the column to 5;
the row moves to the previous row except at row 0, where the row alone is
unchanged (so at row 0, column 1 the cursor becomes row 0, column 5).
Within a row, retreat decrements the column and keeps the row. -/
theorem C7_column_retreat (a : App) :
    (a.cursor.col = 1 →
      a.prev_col.cursor.col = 5 ∧ a.prev_col.cursor.row = a.cursor.row - 1) ∧
    (1 < a.cursor.col →
      a.prev_col.cursor.col = a.cursor.col - 1 ∧ a.prev_col.cursor.row = a.cursor.row) := by
  constructor
  · intro h1
    unfold App.prev_col
    rw [App.update_mode_for_column_cursor, if_neg (by omega)]
    split
    · exact ⟨rfl, rfl⟩
    · rename_i hrow
      refine ⟨rfl, ?_⟩
      show a.cursor.row = a.cursor.row - 1
      omega
  · intro hgt
    unfold App.prev_col
    rw [App.update_mode_for_column_cursor, if_pos hgt]
    exact ⟨rfl, rfl⟩

/-- Witness for C7 at the initial state. -/
theorem C7_column_retreat_witness :
    App.init.cursor.col = 1 ∧
    (App.init.prev_col.cursor.col = 5 ∧
      App.init.prev_col.cursor.row = App.init.cursor.row - 1) :=
  ⟨by decide, (C7_column_retreat App.init).1 (by decide)⟩

/-- C8: export emits exactly one row per entry that is not entirely empty,
in list order (the index-carrying specification walk), its row count equals
the number of such entries, and in the concrete scenario an all-empty row is
excluded while a row with only a task number is exported with task time
rendered `"00:00"`. -/
theorem C8_export_rows (es : List TimeEntry) :
    export_csv_rows es = export_rows_by_spec 0 es ∧
    (export_csv_rows es).length = (es.filter (fun e => !e.is_entirely_empty)).length ∧
    export_csv_rows [TimeEntry.new, ⟨'T' :: '1' :: [], [], [], [], []⟩] =
      [{ row := 2, task_number := 'T' :: '1' :: [], work_code := [], time_entry := [],
          start_time := [], end_time := [],
          task_time := '0' :: '0' :: ':' :: '0' :: '0' :: [] }] := by
  refine ⟨export_csv_rows_eq_spec es, ?_, by decide⟩
  rw [export_csv_rows_eq_spec es, export_rows_by_spec_length]

/-- C2 counterexample: start and end `"9999"` are exactly four digits after
stripping `':'` and end equals start, yet `calculate_task_time` yields no
duration (hour 99 is out of range), so "formatted duration exactly when both
strings are exactly 4 digits after stripping `':'` and end ≥ start" fails. -/
theorem C2_counterexample :
    (('9' :: '9' :: '9' :: '9' :: []).filter (fun c => c ≠ ':') =
        '9' :: '9' :: '9' :: '9' :: [] ∧
      ('9' :: '9' :: '9' :: '9' :: []).all Char.isDigit = true ∧
      ('9' :: '9' :: '9' :: '9' :: []).length = 4) ∧
    TimeEntry.calculate_task_time
      ⟨[], [], [], '9' :: '9' :: '9' :: '9' :: [], '9' :: '9' :: '9' :: '9' :: []⟩ =
      none := by
  decide

/-- C2 (amended): `calculate_task_time` returns the formatted duration
exactly when both endpoints parse as times-of-day via `parse_time` (exactly
four characters after stripping `':'`, each half an unsigned integer per
Rust parsing, hour below 24 and minute below 60) and end is not before
start; it never fabricates a value otherwise, and the duration is
end minus start — never negative.  The claim's concrete example holds. -/
theorem C2_duration_correctness (e : TimeEntry) :
    (∀ st en, TimeEntry.parse_time e.start_time = some st →
      TimeEntry.parse_time e.end_time = some en → st ≤ en →
      e.calculate_task_time =
        some (TimeEntry.format02 ((en - st) / 60) ++
          ':' :: TimeEntry.format02 ((en - st) % 60))) ∧
    (∀ st en, TimeEntry.parse_time e.start_time = some st →
      TimeEntry.parse_time e.end_time = some en → en < st →
      e.calculate_task_time = none) ∧
    (TimeEntry.parse_time e.start_time = none → e.calculate_task_time = none) ∧
    (TimeEntry.parse_time e.end_time = none → e.calculate_task_time = none) ∧
    TimeEntry.calculate_task_time
      ⟨[], [], [], '0' :: '9' :: ':' :: '0' :: '0' :: [],
        '1' :: '7' :: ':' :: '3' :: '0' :: []⟩ =
      some ('0' :: '8' :: ':' :: '3' :: '0' :: []) ∧
    TimeEntry.calculate_task_time
      ⟨[], [], [], '1' :: '7' :: ':' :: '0' :: '0' :: [],
        '0' :: '9' :: ':' :: '0' :: '0' :: []⟩ = none ∧
    TimeEntry.parse_time ('a' :: 'b' :: 'c' :: []) = none ∧
    TimeEntry.calculate_task_time
      ⟨[], [], [], 'a' :: 'b' :: 'c' :: [],
        '1' :: '7' :: ':' :: '0' :: '0' :: []⟩ = none := by
  refine ⟨?_, ?_, ?_, ?_, by decide, by decide, by decide, by decide⟩
  · intro st en hst hen hle
    have hs := parse_time_isEmpty_false hst
    have he2 := parse_time_isEmpty_false hen
    unfold TimeEntry.calculate_task_time
    rw [if_neg (by rw [hs, he2]; simp), hst, hen]
    dsimp only
    rw [if_neg (by omega)]
  · intro st en hst hen hlt
    have hs := parse_time_isEmpty_false hst
    have he2 := parse_time_isEmpty_false hen
    unfold TimeEntry.calculate_task_time
    rw [if_neg (by rw [hs, he2]; simp), hst, hen]
    dsimp only
    rw [if_pos hlt]
  · intro hst
    unfold TimeEntry.calculate_task_time
    by_cases hemp : (e.start_time.isEmpty || e.end_time.isEmpty) = true
    · rw [if_pos hemp]
    · rw [if_neg hemp, hst]
  · intro hen
    unfold TimeEntry.calculate_task_time
    by_cases hemp : (e.start_time.isEmpty || e.end_time.isEmpty) = true
    · rw [if_pos hemp]
    · rw [if_neg hemp, hen]
      cases hst : TimeEntry.parse_time e.start_time <;> rfl

/-- Witness for C2 at start 09:00, end 17:30 (parsing to minutes 540 and
1050). -/
theorem C2_duration_correctness_witness :
    TimeEntry.parse_time ('0' :: '9' :: ':' :: '0' :: '0' :: []) = some 540 ∧
    TimeEntry.parse_time ('1' :: '7' :: ':' :: '3' :: '0' :: []) = some 1050 ∧
    TimeEntry.calculate_task_time
      ⟨[], [], [], '0' :: '9' :: ':' :: '0' :: '0' :: [],
        '1' :: '7' :: ':' :: '3' :: '0' :: []⟩ =
      some (TimeEntry.format02 ((1050 - 540) / 60) ++
        ':' :: TimeEntry.format02 ((1050 - 540) % 60)) :=
  ⟨by decide, by decide,
    (C2_duration_correctness _).1 540 1050 (by decide) (by decide) (by decide)⟩

/-- Key events that leave the pending-delete flag untouched in Navigation:
quit, and the Control-modified export, clear-all and copy chords. -/
def keepsPendingKey (k : KeyEvent) : Prop :=
  k.code = KeyCode.char 'q' ∨
    (k.ctrl = true ∧ (k.code = KeyCode.char 's' ∨ k.code = KeyCode.char 'x' ∨
      k.code = KeyCode.char 'y'))

instance (k : KeyEvent) : Decidable (keepsPendingKey k) := by
  unfold keepsPendingKey
  infer_instance

/-- C4 counterexample: after a first `d` the flag is set; a following `q`
(a non-`d` key) leaves the flag set instead of clearing it, and a single
further `d` then opens the delete confirmation. -/
theorem C4_counterexample :
    (App.run App.init [⟨KeyCode.char 'd', false⟩]).pending_delete = true ∧
    (App.run App.init [⟨KeyCode.char 'd', false⟩,
        ⟨KeyCode.char 'q', false⟩]).pending_delete = true ∧
    (App.run App.init [⟨KeyCode.char 'd', false⟩, ⟨KeyCode.char 'q', false⟩,
        ⟨KeyCode.char 'd', false⟩]).mode = InputMode.ConfirmDeleteEntry := by
  decide

/-- C4 (amended): in Navigation, a first `d` sets the pending-delete flag
without changing mode; a second `d` while the flag is set enters
ConfirmDeleteEntry and clears it; every other key clears the flag, except
`q`, Ctrl+S, Ctrl+X and Ctrl+Y, which leave the flag exactly as it was. -/
theorem C4_pending_delete (a : App) (hm : a.mode = InputMode.Navigation) :
    (∀ b : Bool, a.pending_delete = false →
      (a.handle_key ⟨KeyCode.char 'd', b⟩).pending_delete = true ∧
      (a.handle_key ⟨KeyCode.char 'd', b⟩).mode = InputMode.Navigation) ∧
    (∀ b : Bool, a.pending_delete = true →
      (a.handle_key ⟨KeyCode.char 'd', b⟩).mode = InputMode.ConfirmDeleteEntry ∧
      (a.handle_key ⟨KeyCode.char 'd', b⟩).pending_delete = false) ∧
    (∀ k : KeyEvent, k.code ≠ KeyCode.char 'd' → ¬keepsPendingKey k →
      (a.handle_key k).pending_delete = false) ∧
    (∀ k : KeyEvent, keepsPendingKey k →
      (a.handle_key k).pending_delete = a.pending_delete) := by
  refine ⟨?_, ?_, ?_, ?_⟩
  · intro b hp
    rw [App.handle_key_nav_char a hm 'd' b,
      if_neg (by decide : ¬('d' : Char) = 'q'),
      if_neg (fun h => absurd h.1 (by decide : ¬('d' : Char) = 's')),
      if_neg (fun h => absurd h.1 (by decide : ¬('d' : Char) = 'x')),
      if_neg (fun h => absurd h.1 (by decide : ¬('d' : Char) = 'y')),
      if_pos (rfl : ('d' : Char) = 'd'), if_neg (by rw [hp]; simp)]
    exact ⟨rfl, hm⟩
  · intro b hp
    rw [App.handle_key_nav_char a hm 'd' b,
      if_neg (by decide : ¬('d' : Char) = 'q'),
      if_neg (fun h => absurd h.1 (by decide : ¬('d' : Char) = 's')),
      if_neg (fun h => absurd h.1 (by decide : ¬('d' : Char) = 'x')),
      if_neg (fun h => absurd h.1 (by decide : ¬('d' : Char) = 'y')),
      if_pos (rfl : ('d' : Char) = 'd'), if_pos hp]
    exact ⟨rfl, rfl⟩
  · intro k hkd hkeep
    obtain ⟨code, b⟩ := k
    cases code
    case char c =>
      rw [App.handle_key_nav_char a hm c b]
      split_ifs with hq hs hx hy hd hpd hi hqm
      · exact absurd (Or.inl (by rw [hq])) hkeep
      · exact absurd (Or.inr ⟨hs.2, Or.inl (by rw [hs.1])⟩) hkeep
      · exact absurd (Or.inr ⟨hx.2, Or.inr (Or.inl (by rw [hx.1]))⟩) hkeep
      · exact absurd (Or.inr ⟨hy.2, Or.inr (Or.inr (by rw [hy.1]))⟩) hkeep
      · exact absurd (by rw [hd]) hkd
      · exact absurd (by rw [hd]) hkd
      · rw [App.enter_edit_pending]
      · rfl
      · rfl
    all_goals
      obtain ⟨e, cur, m, sq, ps, tc, pd, sc⟩ := a
    all_goals
      dsimp only at hm
    all_goals
      subst hm
    all_goals
      unfold App.handle_key
    all_goals
      dsimp only
    all_goals first
      | rw [App.next_col_pending]
      | rw [App.prev_col_pending]
      | rw [App.prev_row_pending]
      | rw [App.next_row_pending]
  · intro k hkeep
    obtain ⟨code, b⟩ := k
    rcases hkeep with hq | ⟨hb, hcode⟩
    · dsimp only at hq
      subst hq
      rw [App.handle_key_nav_char a hm 'q' b, if_pos (rfl : ('q' : Char) = 'q')]
    · dsimp only at hb hcode
      subst hb
      rcases hcode with hs | hx | hy
      · subst hs
        rw [App.handle_key_nav_char a hm 's' true,
          if_neg (by decide : ¬('s' : Char) = 'q'), if_pos ⟨rfl, rfl⟩]
        rfl
      · subst hx
        rw [App.handle_key_nav_char a hm 'x' true,
          if_neg (by decide : ¬('x' : Char) = 'q'),
          if_neg (fun h => absurd h.1 (by decide : ¬('x' : Char) = 's')),
          if_pos ⟨rfl, rfl⟩]
      · subst hy
        rw [App.handle_key_nav_char a hm 'y' true,
          if_neg (by decide : ¬('y' : Char) = 'q'),
          if_neg (fun h => absurd h.1 (by decide : ¬('y' : Char) = 's')),
          if_neg (fun h => absurd h.1 (by decide : ¬('y' : Char) = 'x')),
          if_pos ⟨rfl, rfl⟩]
        rfl

/-- Witness for C4 at the initial state: `d` sets the flag, a plain `t`
clears it, a `q` leaves it untouched. -/
theorem C4_pending_delete_witness :
    (App.init.handle_key ⟨KeyCode.char 'd', false⟩).pending_delete = true ∧
    (App.init.handle_key ⟨KeyCode.char 't', false⟩).pending_delete = false ∧
    (App.init.handle_key ⟨KeyCode.char 'q', false⟩).pending_delete =
      App.init.pending_delete :=
  ⟨((C4_pending_delete App.init (by decide)).1 false (by decide)).1,
    (C4_pending_delete App.init (by decide)).2.2.1 ⟨KeyCode.char 't', false⟩
      (by decide) (by decide),
    (C4_pending_delete App.init (by decide)).2.2.2 ⟨KeyCode.char 'q', false⟩
      (Or.inl rfl)⟩

/-- C5: confirmed deletion keeps the list nonempty and resets the column to
1; with exactly one row that row is reset to blank in place; with more rows
the current row is removed and the cursor row is clamped to the new last row
when it pointed at or past the end; confirming with `y` returns to
Navigation on column 1 (re-normalized for the new position). -/
theorem C5_row_deletion (a : App) (h1 : a.entries ≠ [])
    (h2 : a.cursor.row < a.entries.length) :
    (a.delete_current_entry.entries ≠ [] ∧ a.delete_current_entry.cursor.col = 1) ∧
    (a.entries.length = 1 →
      a.delete_current_entry.entries = [TimeEntry.new] ∧
      a.delete_current_entry.cursor.row = 0) ∧
    (2 ≤ a.entries.length →
      a.delete_current_entry.entries = a.entries.eraseIdx a.cursor.row ∧
      a.delete_current_entry.cursor.row = min a.cursor.row (a.entries.length - 2)) ∧
    (a.mode = InputMode.ConfirmDeleteEntry → ∀ b : Bool,
      (a.handle_key ⟨KeyCode.char 'y', b⟩).mode = InputMode.Navigation ∧
      (a.handle_key ⟨KeyCode.char 'y', b⟩).cursor.col = 1) := by
  obtain ⟨d1, d2, d3⟩ := App.delete_current_entry_shape a h1 h2
  refine ⟨⟨d1, d3⟩, ?_, ?_, ?_⟩
  · intro hlen1
    unfold App.delete_current_entry
    rw [App.save_entries_entries, App.save_entries_cursor,
      App.update_mode_for_column_entries, App.update_mode_for_column_cursor,
      if_pos (by omega)]
    obtain ⟨x, hx⟩ := List.length_eq_one.mp hlen1
    rw [hx]
    exact ⟨rfl, rfl⟩
  · intro hlen2
    have herase : (a.entries.eraseIdx a.cursor.row).length = a.entries.length - 1 :=
      List.length_eraseIdx_of_lt h2
    unfold App.delete_current_entry
    rw [App.save_entries_entries, App.save_entries_cursor,
      App.update_mode_for_column_entries, App.update_mode_for_column_cursor,
      if_neg (by omega)]
    split
    · rename_i hclamp
      refine ⟨rfl, ?_⟩
      show (a.entries.eraseIdx a.cursor.row).length - 1 =
        min a.cursor.row (a.entries.length - 2)
      omega
    · rename_i hfit
      refine ⟨rfl, ?_⟩
      show a.cursor.row = min a.cursor.row (a.entries.length - 2)
      omega
  · intro hm b
    rw [App.handle_key_cde_char a hm 'y' b, if_pos (Or.inl rfl)]
    exact ⟨rfl, d3⟩

/-- Witness for C5 at the initial one-row state in ConfirmDeleteEntry. -/
theorem C5_row_deletion_witness :
    App.init.delete_current_entry.entries = [TimeEntry.new] ∧
    App.init.delete_current_entry.cursor.col = 1 ∧
    ({ App.init with mode := InputMode.ConfirmDeleteEntry }.handle_key
        ⟨KeyCode.char 'y', false⟩).mode = InputMode.Navigation :=
  ⟨((C5_row_deletion App.init (by decide) (by decide)).2.1 (by decide)).1,
    (C5_row_deletion App.init (by decide) (by decide)).1.2,
    ((C5_row_deletion { App.init with mode := InputMode.ConfirmDeleteEntry }
        (by decide) (by decide)).2.2.2 rfl false).1⟩

/-- C9 counterexample: from the initial state, Tab, Tab, `i` reaches
EditingPopup; pressing Esc there performs no save (the save count is
unchanged) and returns to ViewingPopup, although Esc exits an edit mode. -/
theorem C9_counterexample :
    (App.run App.init [⟨KeyCode.tab, false⟩, ⟨KeyCode.tab, false⟩,
        ⟨KeyCode.char 'i', false⟩]).mode = InputMode.EditingPopup ∧
    ((App.run App.init [⟨KeyCode.tab, false⟩, ⟨KeyCode.tab, false⟩,
        ⟨KeyCode.char 'i', false⟩]).handle_key ⟨KeyCode.esc, false⟩).saveCount =
      (App.run App.init [⟨KeyCode.tab, false⟩, ⟨KeyCode.tab, false⟩,
        ⟨KeyCode.char 'i', false⟩]).saveCount ∧
    ((App.run App.init [⟨KeyCode.tab, false⟩, ⟨KeyCode.tab, false⟩,
        ⟨KeyCode.char 'i', false⟩]).handle_key ⟨KeyCode.esc, false⟩).mode =
      InputMode.ViewingPopup := by
  decide

/-- C9 (amended): a save is performed after every successful character
insertion or deletion in any editing mode, and on Esc from Editing (which
exits the edit); Esc from EditingPopup returns to ViewingPopup without any
save.  In Editing every character key dispatches to `insert_char`. -/
theorem C9_save_triggers (a : App) :
    (a.mode = InputMode.Editing → ∀ b : Bool,
      (a.handle_key ⟨KeyCode.esc, b⟩).saveCount = a.saveCount + 1) ∧
    (a.mode = InputMode.EditingPopup → ∀ b : Bool,
      (a.handle_key ⟨KeyCode.esc, b⟩).saveCount = a.saveCount ∧
      (a.handle_key ⟨KeyCode.esc, b⟩).mode = InputMode.ViewingPopup) ∧
    (∀ c : Char, a.cursor.row < a.entries.length → 1 ≤ a.cursor.col → a.cursor.col ≤ 5 →
      a.text_cursor ≤
        ((a.entries.getD a.cursor.row TimeEntry.new).getField a.cursor.col).length →
      (a.insert_char c).saveCount = a.saveCount + 1) ∧
    (a.cursor.row < a.entries.length → 1 ≤ a.cursor.col → a.cursor.col ≤ 5 →
      1 ≤ a.text_cursor →
      a.text_cursor ≤
        ((a.entries.getD a.cursor.row TimeEntry.new).getField a.cursor.col).length →
      a.delete_char.saveCount = a.saveCount + 1) ∧
    (a.mode = InputMode.Editing → ∀ (c : Char) (b : Bool),
      a.handle_key ⟨KeyCode.char c, b⟩ = a.insert_char c) := by
  refine ⟨?_, ?_, ?_, ?_, ?_⟩
  · intro hm b
    rw [App.handle_key_editing_esc a hm b]
    unfold App.exit_edit
    split <;> rfl
  · intro hm b
    rw [App.handle_key_ep_esc a hm b]
    exact ⟨rfl, rfl⟩
  · intro c hr h3 h4 htc
    unfold App.insert_char
    rw [if_neg (by omega), if_neg (by omega), if_pos htc]
    rfl
  · intro hr h3 h4 htc1 htc2
    unfold App.delete_char
    rw [if_neg (by omega), if_neg (by omega), if_pos ⟨by omega, htc2⟩]
    rfl
  · intro hm c b
    exact App.handle_key_editing_char a hm c b

/-- Witness for C9: entering Editing with `i` from the initial state, Esc
saves once. -/
theorem C9_save_triggers_witness :
    (App.init.handle_key ⟨KeyCode.char 'i', false⟩).mode = InputMode.Editing ∧
    ((App.init.handle_key ⟨KeyCode.char 'i', false⟩).handle_key
        ⟨KeyCode.esc, false⟩).saveCount =
      (App.init.handle_key ⟨KeyCode.char 'i', false⟩).saveCount + 1 :=
  ⟨by decide, (C9_save_triggers _).1 (by decide) false⟩

/-- C10: character insertion and deletion are total and guarded: both are
no-ops on an out-of-range row or a text cursor beyond the field, deletion is
a no-op at text cursor 0, and in the successful cases the edited field and
text cursor move exactly one position, keeping the cursor within the new
field bounds — so no edit indexes outside a field. -/
theorem C10_edit_guards (a : App) (c : Char) :
    (a.cursor.row ≥ a.entries.length → a.insert_char c = a ∧ a.delete_char = a) ∧
    (a.text_cursor >
        ((a.entries.getD a.cursor.row TimeEntry.new).getField a.cursor.col).length →
      a.insert_char c = a ∧ a.delete_char = a) ∧
    (a.text_cursor = 0 → a.delete_char = a) ∧
    (a.cursor.row < a.entries.length → 1 ≤ a.cursor.col → a.cursor.col ≤ 5 →
      a.text_cursor ≤
        ((a.entries.getD a.cursor.row TimeEntry.new).getField a.cursor.col).length →
      (a.insert_char c).text_cursor = a.text_cursor + 1 ∧
      ((a.insert_char c).entries.getD a.cursor.row TimeEntry.new).getField a.cursor.col =
        ((a.entries.getD a.cursor.row TimeEntry.new).getField a.cursor.col).insertIdx
          a.text_cursor c ∧
      (a.insert_char c).text_cursor ≤
        (((a.insert_char c).entries.getD a.cursor.row TimeEntry.new).getField
          a.cursor.col).length) ∧
    (a.cursor.row < a.entries.length → 1 ≤ a.cursor.col → a.cursor.col ≤ 5 →
      1 ≤ a.text_cursor →
      a.text_cursor ≤
        ((a.entries.getD a.cursor.row TimeEntry.new).getField a.cursor.col).length →
      a.delete_char.text_cursor = a.text_cursor - 1 ∧
      (a.delete_char.entries.getD a.cursor.row TimeEntry.new).getField a.cursor.col =
        ((a.entries.getD a.cursor.row TimeEntry.new).getField a.cursor.col).eraseIdx
          (a.text_cursor - 1) ∧
      a.delete_char.text_cursor ≤
        ((a.delete_char.entries.getD a.cursor.row TimeEntry.new).getField
          a.cursor.col).length) := by
  refine ⟨?_, ?_, ?_, ?_, ?_⟩
  · intro hr
    constructor
    · unfold App.insert_char
      rw [if_pos hr]
    · unfold App.delete_char
      rw [if_pos (Or.inl hr)]
  · intro htc
    constructor
    · unfold App.insert_char
      split
      · rfl
      split
      · rfl
      · rw [if_neg (by omega)]
    · unfold App.delete_char
      split
      · rfl
      split
      · rfl
      · rw [if_neg (by omega)]
  · intro htc
    unfold App.delete_char
    rw [if_pos (Or.inr htc)]
  · intro hr h3 h4 htc
    unfold App.insert_char
    rw [if_neg (by omega), if_neg (by omega), if_pos htc]
    refine ⟨rfl, ?_, ?_⟩
    · dsimp only [App.auto_save, App.save_entries]
      rw [getD_set_self a.entries a.cursor.row _ hr,
        TimeEntry.getField_setField _ _ _ h3 h4]
    · dsimp only [App.auto_save, App.save_entries]
      rw [getD_set_self a.entries a.cursor.row _ hr,
        TimeEntry.getField_setField _ _ _ h3 h4,
        List.length_insertIdx _ _ htc]
      omega
  · intro hr h3 h4 htc1 htc2
    unfold App.delete_char
    rw [if_neg (by omega), if_neg (by omega), if_pos ⟨by omega, htc2⟩]
    refine ⟨rfl, ?_, ?_⟩
    · dsimp only [App.auto_save, App.save_entries]
      rw [getD_set_self a.entries a.cursor.row _ hr,
        TimeEntry.getField_setField _ _ _ h3 h4]
    · dsimp only [App.auto_save, App.save_entries]
      rw [getD_set_self a.entries a.cursor.row _ hr,
        TimeEntry.getField_setField _ _ _ h3 h4,
        List.length_eraseIdx_of_lt (by omega)]
      omega

/-- Witness for C10 at the initial state: inserting advances the text
cursor, deleting at cursor 0 is a no-op. -/
theorem C10_edit_guards_witness :
    ((App.init.insert_char 'x').text_cursor = App.init.text_cursor + 1) ∧
    App.init.delete_char = App.init :=
  ⟨((C10_edit_guards App.init 'x').2.2.2.1 (by decide) (by decide) (by decide)
      (by decide)).1,
    (C10_edit_guards App.init 'x').2.2.1 (by decide)⟩
